import Mathlib

/-!
Shallow embedding of the Xelvin performance dashboard (src/App.jsx) and
verification of its specification.

Dates are modelled as civil (year, month, day) triples of integers; a date is
also identified with its day number (days since 1970-01-01, the value
underlying a JS `Date` at UTC midnight).  Machine floats never matter here:
every JS arithmetic step in the source operates on exact integers (UTC
midnight timestamps divided by 86400000, small counters), so `Int` is a
faithful carrier.
-/

namespace Xelvin

/-- PIN constant from App.jsx line 11. -/
def PINCODE : String := "8448"

/-- Roster constant from App.jsx line 12, in declaration order. -/
def CONSULTANTS : List String := ["Marcus","Lisanna","Nick","Gea","Dion","Sander","Yde"]

/-! ### Calendar arithmetic

`daysFromCivil` / `yearOfDays` implement the standard proleptic-Gregorian
conversion between civil dates and day numbers (days since 1970-01-01),
which is exactly the arithmetic `Date.UTC` / `getUTCFullYear` perform.
Divisions are floor divisions (`Int.fdiv`). -/

/-- Day number (days since 1970-01-01) of the civil date `(y, m, d)`, `m` 1-based. -/
def daysFromCivil (y m d : Int) : Int :=
  let y' := if m ≤ 2 then y - 1 else y
  let era := Int.fdiv y' 400
  let yoe := y' - era * 400
  let mp := if 2 < m then m - 3 else m + 9
  let doy := Int.fdiv (153 * mp + 2) 5 + d - 1
  let doe := yoe * 365 + Int.fdiv yoe 4 - Int.fdiv yoe 100 + doy
  era * 146097 + doe - 719468

/-- Civil year containing day number `n` (what `getUTCFullYear` returns). -/
def yearOfDays (n : Int) : Int :=
  let z := n + 719468
  let era := Int.fdiv z 146097
  let doe := z - era * 146097
  let yoe := Int.fdiv (doe - Int.fdiv doe 1460 + Int.fdiv doe 36524 - Int.fdiv doe 146096) 365
  let y := yoe + era * 400
  let doy := doe - (365 * yoe + Int.fdiv yoe 4 - Int.fdiv yoe 100)
  let mp := Int.fdiv (5 * doy + 2) 153
  let mo := if mp < 10 then mp + 3 else mp - 9
  if mo ≤ 2 then y + 1 else y

/-- JS `getUTCDay` of day number `n`: 0 = Sunday .. 6 = Saturday
(1970-01-01 was a Thursday, value 4). -/
def jsUTCDay (n : Int) : Int := Int.emod (n + 4) 7

/-- App.jsx line 27: `tmp.getUTCDay() || 7` — ISO weekday, Monday = 1 .. Sunday = 7. -/
def isoWeekdayFn (n : Int) : Int := if jsUTCDay n = 0 then 7 else jsUTCDay n

/-- `Math.ceil (a / b)` on an exact integer quotient numerator `a`, positive `b`. -/
def ceilDiv (a b : Int) : Int := -(Int.fdiv (-a) b)

/-- App.jsx line 28: `tmp.setUTCDate(tmp.getUTCDate() + 4 - day)` — the Thursday
of the Monday-start week containing `n`. -/
def isoThursday (n : Int) : Int := n + 4 - isoWeekdayFn n

/-- App.jsx lines 29-30 applied to day number `n`:
`Math.ceil(((tmp - yearStart)/86400000 + 1)/7)`.  `tmp` and `yearStart` are both
UTC midnights, so the division by 86400000 is exact and yields
`isoThursday n - daysFromCivil (yearOfDays (isoThursday n)) 1 1`. -/
def isoWeekOfDays (n : Int) : Int :=
  ceilDiv (isoThursday n - daysFromCivil (yearOfDays (isoThursday n)) 1 1 + 1) 7

/-- App.jsx lines 25-31: `isoWeek` on the civil date `(y, m, d)`. -/
def isoWeek (y m d : Int) : Int := isoWeekOfDays (daysFromCivil y m d)

/-! Spec-side model of the ISO week number, written from the spec's words:
"shift the date to the Thursday of its containing Monday-start week, then
compute `ceil((daysSinceJan1OfThatThursdaysYear + 1) / 7)`". -/

/-- Monday starting the week that contains day number `n` (ISO weekday 1). -/
def mondayOfWeek (n : Int) : Int := n - (isoWeekdayFn n - 1)

/-- Thursday of the Monday-start week containing day number `n`. -/
def thursdayOfWeek (n : Int) : Int := mondayOfWeek n + 3

/-- ISO-8601 week number of `(y, m, d)` as the spec words it. -/
def isoWeekSpec (y m d : Int) : Int :=
  ceilDiv (thursdayOfWeek (daysFromCivil y m d)
      - daysFromCivil (yearOfDays (thursdayOfWeek (daysFromCivil y m d))) 1 1 + 1) 7

/-! ### Entries, filtering, aggregation

An entry document as stored / read back (App.jsx lines 94-104).  The `date`
string and `createdAt` server timestamp are omitted: no logic under
verification reads them (`createdAt` is used only as the store's ordering
key).  The counters are exact integers in every reachable store state. -/

structure Entry where
  name : String
  week : Int
  month : Int
  year : Int
  intakes : Int
  interviews : Int
  placements : Int
  prospects : Int
deriving DecidableEq

/-- The reference bucket of the selected date (App.jsx lines 54-57). -/
structure Period where
  week : Int
  month : Int
  year : Int
deriving DecidableEq

/-- The filter predicate of App.jsx lines 60-64 (`===` on exact integers is
integer equality). -/
def entryMatches (filterRange : String) (p : Period) (e : Entry) : Bool :=
  if filterRange = "week" then e.week == p.week && e.year == p.year
  else if filterRange = "month" then e.month == p.month && e.year == p.year
  else if filterRange = "year" then e.year == p.year
  else true

/-- App.jsx lines 59-66: `entries.filter(...)`. -/
def filtered (filterRange : String) (p : Period) (entries : List Entry) : List Entry :=
  entries.filter (entryMatches filterRange p)

/-- One per-member running-totals record (App.jsx line 69). -/
structure Totals where
  name : String
  intakes : Int
  interviews : Int
  placements : Int
  prospects : Int
deriving DecidableEq

/-- App.jsx line 69: `Object.fromEntries(CONSULTANTS.map(n => [n, {...zeros}]))`.
A JS object with string keys preserves insertion order and the loop never adds
or removes keys, so the object is an ordered association list, modelled as a
list of records keyed by their `name` field (names are distinct). -/
def initBase : List Totals :=
  CONSULTANTS.map fun n => ⟨n, 0, 0, 0, 0⟩

/-- App.jsx lines 72-75: add one entry's counters into a member's record.
On integer fields JS `x || 0` equals `x` (it only replaces `0` by `0`). -/
def addEntry (t : Totals) (e : Entry) : Totals :=
  { t with
    intakes := t.intakes + e.intakes
    interviews := t.interviews + e.interviews
    placements := t.placements + e.placements
    prospects := t.prospects + e.prospects }

/-- One loop iteration of App.jsx lines 70-76: if `e.name` is a key of `base`,
update that record in place; otherwise (`if (!base[e.name]) continue`) leave
`base` unchanged. -/
def updateOne (e : Entry) (t : Totals) : Totals :=
  if t.name = e.name then addEntry t e else t

/-- Effect of one entry on the whole ordered map. -/
def updateBase (base : List Totals) (e : Entry) : List Totals :=
  base.map (updateOne e)

/-- App.jsx lines 68-78: fold the filtered entries (in list order, as the
`for...of` loop does) over the zero-initialised base; `Object.values` returns
the records in (unchanged) insertion order. -/
def aggregated (entries : List Entry) : List Totals :=
  entries.foldl updateBase initBase

/-- The grand-total accumulator shape (App.jsx lines 80-85). -/
structure GrandTotal where
  intakes : Int
  interviews : Int
  placements : Int
  prospects : Int
deriving DecidableEq

/-- The reducer of App.jsx lines 80-85. -/
def addTotals (acc : GrandTotal) (cur : Totals) : GrandTotal :=
  ⟨acc.intakes + cur.intakes, acc.interviews + cur.interviews,
   acc.placements + cur.placements, acc.prospects + cur.prospects⟩

/-- App.jsx lines 80-85: `aggregated.reduce(..., zeros)`. -/
def total (agg : List Totals) : GrandTotal :=
  agg.foldl addTotals ⟨0, 0, 0, 0⟩

/-- The ranking comparator of App.jsx line 87:
`(b.placements-a.placements) || (b.intakes-a.intakes) || (b.interviews-a-interviews)`.
JS `||` returns its left operand when it is a nonzero number.  The THIRD
operand is `b.interviews - a - interviews`: it subtracts the whole object `a`
(which coerces to NaN) and then reads the identifier `interviews`, which is
unbound in every enclosing scope, so evaluating it throws a ReferenceError.
The comparator is therefore partial: `none` marks the crash that occurs
whenever both leading differences are zero. -/
def rankCmp (a b : Totals) : Option Int :=
  if b.placements - a.placements ≠ 0 then some (b.placements - a.placements)
  else if b.intakes - a.intakes ≠ 0 then some (b.intakes - a.intakes)
  else none

/-! ### PIN gate

App.jsx line 35: `authorized` starts `false`.  The only write is line 146,
`setAuthorized(pin === PINCODE)`, on the Unlock button — which is rendered
only in the `!authorized` branch (lines 141-149), so in the `Unlocked` state
no gate event can occur and the state persists. -/

def gateInit : Bool := false

/-- One gate event: the Unlock click with the typed PIN `p`. -/
def gateStep (authorized : Bool) (p : String) : Bool :=
  if authorized then true else p == PINCODE

/-! ### Submission flow

Form counter inputs come from `<input type="number">` elements (App.jsx line
230); their controlled value is either a numeric string or empty/garbage, for
which `Number(·)` yields NaN.  `FormValue.invalid` stands for any input whose
numeric coercion is NaN. -/

inductive FormValue where
  | num (n : Int)
  | invalid
deriving DecidableEq

/-- App.jsx lines 100-103: `Number(x) || 0` — NaN (and 0 itself) becomes 0,
any other number is kept. -/
def coerceField : FormValue → Int
  | .num n => if n = 0 then 0 else n
  | .invalid => 0

/-- The input element (App.jsx line 230) carries `type="number" min="0"` with
the default step of 1; native form validation at submit restricts a submitted
numeric value to a non-negative integer. -/
def validField : FormValue → Bool
  | .num n => decide (0 ≤ n)
  | .invalid => true

/-- The four controlled form fields (App.jsx line 42). -/
structure Form where
  intakes : FormValue
  interviews : FormValue
  placements : FormValue
  prospects : FormValue
deriving DecidableEq

def validForm (f : Form) : Bool :=
  validField f.intakes && validField f.interviews &&
  validField f.placements && validField f.prospects

/-- Observable outcome of one `submit` call (App.jsx lines 89-111). -/
structure SubmitResult where
  form : Form
  appended : Option Entry
  confetti : Bool
  alert : Option String
deriving DecidableEq

/-- The payload built at App.jsx lines 94-104 from the selected date `(y,m,d)`
(month already 1-based, as `d.getMonth()+1` makes it). -/
def mkPayload (activePerson : String) (y m d : Int) (f : Form) : Entry :=
  { name := activePerson
    week := isoWeek y m d
    month := m
    year := y
    intakes := coerceField f.intakes
    interviews := coerceField f.interviews
    placements := coerceField f.placements
    prospects := coerceField f.prospects }

/-- App.jsx lines 89-111.  `appendOk = false` models `addDoc` rejecting: the
`await` then throws out of the handler, so neither the confetti branch nor the
`setForm` reset runs and nothing is persisted. -/
def submit (authorized hasDb appendOk : Bool) (activePerson : String)
    (y m d : Int) (f : Form) : SubmitResult :=
  if !authorized then ⟨f, none, false, some "Enter access code first"⟩
  else if !hasDb then
    ⟨f, none, false, some "Firestore not configured (set VITE_FIREBASE_* env vars) in your host"⟩
  else if !appendOk then ⟨f, none, false, none⟩
  else
    let payload := mkPayload activePerson y m d f
    ⟨⟨FormValue.num 0, FormValue.num 0, FormValue.num 0, FormValue.num 0⟩,
      some payload, decide (0 < payload.placements), none⟩

/-- Sample entry used to instantiate the filter characterization. -/
def c3Entry : Entry := ⟨"Marcus", 5, 2, 2024, 1, 1, 1, 1⟩

/-- Sample form used to instantiate the coercion theorem. -/
def c7Form : Form := ⟨FormValue.num 3, FormValue.invalid, FormValue.num 0, FormValue.num 7⟩

/-! ### Helper lemmas -/

theorem thursdayOfWeek_eq_isoThursday (n : Int) : thursdayOfWeek n = isoThursday n := by
  unfold thursdayOfWeek mondayOfWeek isoThursday
  omega

theorem name_updateOne (e : Entry) (t : Totals) : (updateOne e t).name = t.name := by
  unfold updateOne
  split <;> rfl

theorem map_name_updateBase (b : List Totals) (e : Entry) :
    (updateBase b e).map Totals.name = b.map Totals.name := by
  unfold updateBase
  rw [List.map_map]
  exact List.map_congr_left fun t _ => name_updateOne e t

theorem foldl_updateBase_names (es : List Entry) :
    ∀ b : List Totals, (es.foldl updateBase b).map Totals.name = b.map Totals.name := by
  induction es with
  | nil => intro b; rfl
  | cons e es ih =>
      intro b
      rw [List.foldl_cons, ih, map_name_updateBase]

theorem aggregated_names (es : List Entry) :
    (aggregated es).map Totals.name = CONSULTANTS := by
  unfold aggregated
  rw [foldl_updateBase_names]
  rfl

theorem updateBase_of_not_mem (b : List Totals) (e : Entry)
    (h : e.name ∉ b.map Totals.name) : updateBase b e = b := by
  induction b with
  | nil => rfl
  | cons t ts ih =>
      simp only [List.map_cons, List.mem_cons, not_or] at h
      have ht : updateOne e t = t := by
        unfold updateOne
        rw [if_neg fun hh => h.1 hh.symm]
      simp only [updateBase, List.map_cons, ht]
      have := ih h.2
      simpa [updateBase] using this

theorem foldl_filter_roster (es : List Entry) :
    ∀ b : List Totals, b.map Totals.name = CONSULTANTS →
      (es.filter fun e => decide (e.name ∈ CONSULTANTS)).foldl updateBase b =
        es.foldl updateBase b := by
  induction es with
  | nil => intro b _; rfl
  | cons e es ih =>
      intro b hb
      by_cases hc : e.name ∈ CONSULTANTS
      · rw [List.filter_cons_of_pos (by simpa using hc), List.foldl_cons, List.foldl_cons]
        exact ih _ (by rw [map_name_updateBase, hb])
      · rw [List.filter_cons_of_neg (by simpa using hc), List.foldl_cons,
          updateBase_of_not_mem b e (hb ▸ hc)]
        exact ih _ hb

theorem foldl_addTotals (l : List Totals) :
    ∀ acc : GrandTotal,
      l.foldl addTotals acc =
        ⟨acc.intakes + (l.map Totals.intakes).sum,
         acc.interviews + (l.map Totals.interviews).sum,
         acc.placements + (l.map Totals.placements).sum,
         acc.prospects + (l.map Totals.prospects).sum⟩ := by
  induction l with
  | nil => intro acc; simp
  | cons t ts ih =>
      intro acc
      simp only [List.foldl_cons, List.map_cons, List.sum_cons]
      rw [ih]
      simp only [addTotals, GrandTotal.mk.injEq]
      omega

theorem coerceField_nonneg (v : FormValue) (h : validField v = true) :
    0 ≤ coerceField v := by
  cases v with
  | num n =>
      simp only [validField, decide_eq_true_eq] at h
      simp only [coerceField]
      split <;> omega
  | invalid => simp [coerceField]

/-! ### Claim theorems -/

/-- C1: for every calendar date, `isoWeek` equals the ISO-8601 week number
obtained by shifting the date to the Thursday of its Monday-start week and
taking `ceil((daysSinceJan1OfThatThursdaysYear + 1) / 7)`; in particular
`isoWeek 2023-01-01 = 52`, `isoWeek 2024-01-01 = 1`, `isoWeek 2021-01-04 = 1`. -/
theorem isoWeek_matches_iso8601 :
    (∀ y m d : Int, isoWeek y m d = isoWeekSpec y m d) ∧
    isoWeek 2023 1 1 = 52 ∧ isoWeek 2024 1 1 = 1 ∧ isoWeek 2021 1 4 = 1 := by
  refine ⟨fun y m d => ?_, by decide, by decide, by decide⟩
  unfold isoWeek isoWeekSpec isoWeekOfDays
  rw [thursdayOfWeek_eq_isoThursday]

/-- C2: the ranking comparator of App.jsx line 87 cannot order members tied on
placements and intakes by interviews: its third operand dereferences the
unbound identifier `interviews` (a ReferenceError, modelled as `none`), so for
A(placements 5, intakes 10, interviews 3) and B(placements 5, intakes 10,
interviews 7) it crashes instead of putting B first.  The claim's own concrete
pair A(placements 5, intakes 10), B(placements 5, intakes 20) is decided by the
intact intakes key (a positive result ranks B before A). -/
theorem rankCmp_third_key_crashes :
    rankCmp ⟨"A", 10, 3, 5, 0⟩ ⟨"B", 10, 7, 5, 0⟩ = none ∧
    rankCmp ⟨"A", 10, 0, 5, 0⟩ ⟨"B", 20, 0, 5, 0⟩ = some 10 := by
  decide

/-- C3: `week` mode selects exactly the entries with equal week and year,
`month` mode those with equal month and year, `year` mode those with equal
year, and any other mode selects the whole collection. -/
theorem filtered_characterization (p : Period) (es : List Entry) :
    (∀ e : Entry, e ∈ filtered "week" p es ↔ e ∈ es ∧ e.week = p.week ∧ e.year = p.year) ∧
    (∀ e : Entry, e ∈ filtered "month" p es ↔ e ∈ es ∧ e.month = p.month ∧ e.year = p.year) ∧
    (∀ e : Entry, e ∈ filtered "year" p es ↔ e ∈ es ∧ e.year = p.year) ∧
    (∀ mode : String, mode ≠ "week" → mode ≠ "month" → mode ≠ "year" →
      filtered mode p es = es) := by
  refine ⟨?_, ?_, ?_, ?_⟩
  · intro e
    simp [filtered, entryMatches, List.mem_filter, and_assoc]
  · intro e
    simp [filtered, entryMatches, List.mem_filter, and_assoc]
  · intro e
    simp [filtered, entryMatches, List.mem_filter]
  · intro mode h1 h2 h3
    unfold filtered
    have hp : ∀ e ∈ es, entryMatches mode p e = true := by
      intro e _
      simp [entryMatches, h1, h2, h3]
    exact List.filter_eq_self.mpr hp

/-- C3 witness: an unrecognized mode leaves a concrete collection unfiltered. -/
theorem filtered_characterization_witness :
    filtered "all" ⟨5, 2, 2024⟩ [c3Entry] = [c3Entry] :=
  (filtered_characterization ⟨5, 2, 2024⟩ [c3Entry]).2.2.2 "all"
    (by decide) (by decide) (by decide)

/-- C4: the grand total is the elementwise sum of the four counters over all
per-member aggregated totals, for every entry collection and filter. -/
theorem total_is_elementwise_sum (mode : String) (p : Period) (es : List Entry) :
    total (aggregated (filtered mode p es)) =
      ⟨((aggregated (filtered mode p es)).map Totals.intakes).sum,
       ((aggregated (filtered mode p es)).map Totals.interviews).sum,
       ((aggregated (filtered mode p es)).map Totals.placements).sum,
       ((aggregated (filtered mode p es)).map Totals.prospects).sum⟩ := by
  unfold total
  rw [foldl_addTotals]
  simp

/-- C5: for every entry collection (hence for every arrival order of the same
entries), the aggregator output has exactly one record per roster member, in
roster declaration order: its list of names is exactly `CONSULTANTS`. -/
theorem aggregated_one_record_per_member (es : List Entry) :
    (aggregated es).map Totals.name = CONSULTANTS :=
  aggregated_names es

/-- C6: entries whose name is not on the roster are silently skipped: every
aggregated record's name is a roster member, and dropping all non-roster
entries changes neither the per-member totals nor the grand total. -/
theorem unknown_names_skipped :
    (∀ (es : List Entry) (t : Totals), t ∈ aggregated es → t.name ∈ CONSULTANTS) ∧
    (∀ es : List Entry,
      aggregated (es.filter fun e => decide (e.name ∈ CONSULTANTS)) = aggregated es) ∧
    (∀ es : List Entry,
      total (aggregated (es.filter fun e => decide (e.name ∈ CONSULTANTS))) =
        total (aggregated es)) := by
  have hfilter : ∀ es : List Entry,
      aggregated (es.filter fun e => decide (e.name ∈ CONSULTANTS)) = aggregated es := by
    intro es
    unfold aggregated
    exact foldl_filter_roster es initBase rfl
  refine ⟨?_, hfilter, fun es => by rw [hfilter]⟩
  intro es t ht
  have := List.mem_map_of_mem Totals.name ht
  rwa [aggregated_names] at this

/-- C6 witness: a record of the aggregation of the singleton collection holding
only the unknown name "Zed" — the output still consists of roster members. -/
theorem unknown_names_skipped_witness :
    (Totals.mk "Marcus" 0 0 0 0).name ∈ CONSULTANTS :=
  unknown_names_skipped.1 [⟨"Zed", 1, 1, 2024, 3, 3, 3, 3⟩]
    ⟨"Marcus", 0, 0, 0, 0⟩ (by decide)

/-- C7: on a successful authorized submission, each stored counter is the
numeric coercion of the corresponding form field — non-numeric or missing
input becomes 0 — and, the form inputs being constrained to non-negative
values, each stored counter is a non-negative integer. -/
theorem submit_coerces_counters (ap : String) (y m d : Int) (f : Form) (e : Entry)
    (hv : validForm f = true)
    (happ : (submit true true true ap y m d f).appended = some e) :
    (0 ≤ e.intakes ∧ 0 ≤ e.interviews ∧ 0 ≤ e.placements ∧ 0 ≤ e.prospects) ∧
    (e.intakes = coerceField f.intakes ∧ e.interviews = coerceField f.interviews ∧
     e.placements = coerceField f.placements ∧ e.prospects = coerceField f.prospects) ∧
    (f.intakes = FormValue.invalid → e.intakes = 0) ∧
    (f.interviews = FormValue.invalid → e.interviews = 0) ∧
    (f.placements = FormValue.invalid → e.placements = 0) ∧
    (f.prospects = FormValue.invalid → e.prospects = 0) := by
  have he : mkPayload ap y m d f = e := by
    have h' : some (mkPayload ap y m d f) = some e := happ
    exact Option.some_injective _ h'
  subst he
  simp only [validForm, Bool.and_eq_true] at hv
  refine ⟨⟨coerceField_nonneg _ hv.1.1.1, coerceField_nonneg _ hv.1.1.2,
    coerceField_nonneg _ hv.1.2, coerceField_nonneg _ hv.2⟩,
    ⟨rfl, rfl, rfl, rfl⟩, ?_, ?_, ?_, ?_⟩ <;>
    · intro hinv
      simp [mkPayload, hinv, coerceField]

/-- C7 witness: a concrete valid form with one non-numeric field submits to a
payload whose counters are the coercions, all non-negative. -/
theorem submit_coerces_counters_witness :
    (0 ≤ (mkPayload "Marcus" 2024 1 1 c7Form).intakes ∧
     0 ≤ (mkPayload "Marcus" 2024 1 1 c7Form).interviews ∧
     0 ≤ (mkPayload "Marcus" 2024 1 1 c7Form).placements ∧
     0 ≤ (mkPayload "Marcus" 2024 1 1 c7Form).prospects) ∧
    ((mkPayload "Marcus" 2024 1 1 c7Form).intakes = coerceField c7Form.intakes ∧
     (mkPayload "Marcus" 2024 1 1 c7Form).interviews = coerceField c7Form.interviews ∧
     (mkPayload "Marcus" 2024 1 1 c7Form).placements = coerceField c7Form.placements ∧
     (mkPayload "Marcus" 2024 1 1 c7Form).prospects = coerceField c7Form.prospects) ∧
    (c7Form.intakes = FormValue.invalid → (mkPayload "Marcus" 2024 1 1 c7Form).intakes = 0) ∧
    (c7Form.interviews = FormValue.invalid → (mkPayload "Marcus" 2024 1 1 c7Form).interviews = 0) ∧
    (c7Form.placements = FormValue.invalid → (mkPayload "Marcus" 2024 1 1 c7Form).placements = 0) ∧
    (c7Form.prospects = FormValue.invalid → (mkPayload "Marcus" 2024 1 1 c7Form).prospects = 0) :=
  submit_coerces_counters "Marcus" 2024 1 1 c7Form
    (mkPayload "Marcus" 2024 1 1 c7Form) (by decide) rfl

/-- C8: the gate starts Locked; from Locked an entered PIN unlocks exactly when
it equals `PINCODE` by string equality, and an incorrect PIN leaves it Locked;
once Unlocked, every event keeps it Unlocked — no event sequence returns it to
Locked. -/
theorem gate_state_machine :
    gateInit = false ∧
    (∀ p : String, gateStep gateInit p = true ↔ p = PINCODE) ∧
    (∀ p : String, p ≠ PINCODE → gateStep gateInit p = false) ∧
    (∀ p : String, gateStep true p = true) ∧
    (∀ ps : List String, ps.foldl gateStep true = true) := by
  refine ⟨rfl, ?_, ?_, fun p => rfl, ?_⟩
  · intro p
    simp [gateStep, gateInit]
  · intro p h
    simp [gateStep, gateInit, h]
  · intro ps
    induction ps with
    | nil => rfl
    | cons p ps ih => rw [List.foldl_cons]; exact ih

/-- C8 witness: a wrong PIN from the initial state leaves the gate Locked. -/
theorem gate_state_machine_witness : gateStep gateInit "0000" = false :=
  gate_state_machine.2.2.1 "0000" (by decide)

/-- C9: if the store append rejects, the form's four fields are unchanged and
no confetti fires (and nothing is persisted); the reset to zero happens only on
the successful path. -/
theorem append_failure_leaves_form (ap : String) (y m d : Int) (f : Form) :
    submit true true false ap y m d f = ⟨f, none, false, none⟩ ∧
    (submit true true true ap y m d f).form =
      ⟨FormValue.num 0, FormValue.num 0, FormValue.num 0, FormValue.num 0⟩ :=
  ⟨rfl, rfl⟩

/-- C10: submitting while the gate is Locked only raises the alert: nothing is
appended, no confetti fires, and the form fields are unchanged. -/
theorem locked_submit_noop (hasDb appendOk : Bool) (ap : String) (y m d : Int) (f : Form) :
    submit false hasDb appendOk ap y m d f =
      ⟨f, none, false, some "Enter access code first"⟩ :=
  rfl

end Xelvin
